import Mathlib

/-!
Shallow embedding of the `podbean` Rust client (src/lib.rs, src/types.rs,
src/error.rs) and proofs about the spec's claims.

Instants are modelled as natural numbers counting nanoseconds from an
arbitrary origin (mirroring `std::time::Instant`, which is monotonic);
`Duration` values are likewise nanosecond counts, and `Duration::as_secs`
is integer division by 10^9.  Execution time between statements is taken
to be zero: time advances only across `sleep`.

External collaborators (reqwest, serde_json, tokio::fs) are modelled as
data supplied to the functions: an HTTP response carries its status, its
`Retry-After` header, and the result of reading its body; a body carries
the text together with the results of the two JSON parses the code
performs on it (as a `serde_json::Value` and as a `TokenResponse`).
Outbound I/O is recorded in an explicit effect trace.
-/

namespace Podbean

/-- Nanoseconds per second; `Duration::as_secs` divides by this. -/
def nsPerSec : Nat := 1000000000

/-- The 60-second window, `Duration::from_secs(60)`, in nanoseconds. -/
def window : Nat := 60 * nsPerSec

/-- `struct RateLimiter` from src/lib.rs: capacity (requests per minute)
and the retained admission instants, oldest first. -/
structure RateLimiter where
  requests_per_minute : Nat
  request_times : List Nat
deriving Repr, DecidableEq

/-- `RateLimiter::new` (src/lib.rs:87-92): stores the capacity and an empty
vector.  Note that it performs no validation of the capacity. -/
def RateLimiter.new (requests_per_minute : Nat) : RateLimiter :=
  ⟨requests_per_minute, []⟩

/-- `RateLimiter::wait_if_needed` (src/lib.rs:98-120), called at instant
`now`.  Returns the new limiter state together with the instant at which
the call returns (= the pushed `Instant::now()`), or `none` when the
code panics (the index access `self.request_times[0]` on an empty
vector).  Faithful details: the prune keeps instants strictly younger
than 60 s; the sleep is skipped when `wait_time.as_secs() == 0` even
though `wait_time` may be a positive sub-second duration; the oldest
retained entry is removed and the post-sleep instant appended. -/
def RateLimiter.wait_if_needed (rl : RateLimiter) (now : Nat) :
    Option (RateLimiter × Nat) :=
  let kept := rl.request_times.filter fun t => decide (now - t < window)
  if rl.requests_per_minute ≤ kept.length then
    match kept with
    | [] => none
    | oldest :: rest =>
      let wait := window - (now - oldest)
      let now2 := if 0 < wait / nsPerSec then now + wait else now
      some (⟨rl.requests_per_minute, rest ++ [now2]⟩, now2)
  else
    some (⟨rl.requests_per_minute, kept ++ [now]⟩, now)

/-- A sequence of `wait_if_needed` calls at externally chosen instants
(each list entry is the `Instant::now()` observed at the start of one
call); `none` once any call panics. -/
def runCalls : RateLimiter → List Nat → Option RateLimiter
  | rl, [] => some rl
  | rl, t :: ts =>
    match rl.wait_if_needed t with
    | none => none
    | some (rl2, _) => runCalls rl2 ts

/-- `n` back-to-back `wait_if_needed` calls against a fresh limiter of
capacity `C`, starting at instant 0: each call starts at the instant the
previous one returned (zero execution overhead, time advances only
across `sleep`).  Returns the limiter state, the current instant, and
the list of admitted timestamps (the instant recorded at the end of each
call), or `none` on a panic. -/
def btbRun (C : Nat) : Nat → Option (RateLimiter × Nat × List Nat)
  | 0 => some (RateLimiter.new C, 0, [])
  | n + 1 =>
    match btbRun C n with
    | none => none
    | some (rl, now, adm) =>
      match rl.wait_if_needed now with
      | none => none
      | some (rl2, now2) => some (rl2, now2, adm ++ [now2])

/-- `struct TokenResponse` from src/types.rs. -/
structure TokenResponse where
  access_token : String
  token_type : String
  expires_in : Nat
  scope : Option String
  refresh_token : Option String
deriving Repr, DecidableEq

/-- `struct AuthToken` from src/types.rs.  `created_at` is the creation
instant; for the token the code only ever uses whole elapsed seconds
(`duration_since(..).as_secs()`), so token instants are modelled in
seconds. -/
structure AuthToken where
  access_token : String
  token_type : String
  expires_in : Nat
  refresh_token : Option String
  created_at : Nat
deriving Repr, DecidableEq

/-- `AuthToken::is_expired` (src/types.rs:44-50) observed at instant
`now` (in seconds): `elapsed.as_secs() + 300 > self.expires_in`.
`Instant::duration_since` saturates at zero, as does `Nat` subtraction. -/
def AuthToken.is_expired (tok : AuthToken) (now : Nat) : Bool :=
  decide (now - tok.created_at + 300 > tok.expires_in)

/-- `impl From<TokenResponse> for AuthToken` (src/types.rs:68-79),
with `Instant::now()` passed in as `now`. -/
def AuthToken.fromTokenResponse (response : TokenResponse) (now : Nat) :
    AuthToken :=
  ⟨response.access_token, response.token_type, response.expires_in,
    response.refresh_token, now⟩

/-- The spec's derived-state rule for §4.1, written from the spec's own
words: *expired* = (now − created) + safety_margin(300s) strictly
exceeds the declared lifetime. -/
def expiredSpec (created now lifetime : Nat) : Prop :=
  (now - created) + 300 > lifetime

/-- A `serde_json::Value`. -/
inductive Json where
  | null : Json
  | bool (b : Bool) : Json
  | num (n : Int) : Json
  | str (s : String) : Json
  | arr (xs : List Json) : Json
  | obj (fields : List (String × Json)) : Json
deriving Repr

/-- `Value::get(key)` on an object (objects have unique keys after
parsing); `None` on any non-object, like `v["key"]` yielding `Null`. -/
def Json.get : Json → String → Option Json
  | .obj fields, k => fields.lookup k
  | _, _ => none

/-- `Value::as_str`. -/
def Json.asStr : Json → Option String
  | .str s => some s
  | _ => none

/-- `enum PodbeanError` from src/error.rs.  The two wrapped-library
variants carry the underlying error's description as a string. -/
inductive PodbeanError where
  | ApiError (code : Nat) (message : String)
  | RateLimitError (retry_after : Option Nat)
  | NetworkError (detail : String)
  | SerializationError (detail : String)
  | UrlParseError (detail : String)
  | AuthError (message : String)
  | OtherError (message : String)
deriving Repr, DecidableEq

/-- `str::parse::<u64>()` for the `Retry-After` header value: a
non-empty all-digit string (no sign handling needed for header values),
bounded by `u64`. -/
def parse_u64 (s : String) : Option Nat :=
  match s.toList with
  | [] => none
  | cs =>
    if cs.all Char.isDigit then
      match cs.foldl (fun acc c => acc * 10 + (c.toNat - 48)) 0 with
      | n => if n < 2 ^ 64 then some n else none
    else none

/-- The result of reading a response body: its text together with the
results of the two parses the code may apply to that text. -/
structure BodyData where
  text : String
  /-- `serde_json::from_str::<serde_json::Value>(&text)`, `none` when
  the text is not valid JSON. -/
  json : Option Json
  /-- `response.json::<TokenResponse>()` on the same bytes, `none` when
  they do not decode as a `TokenResponse`. -/
  token : Option TokenResponse

/-- An HTTP response as the client observes it: status code, the
`Retry-After` header (when present and valid UTF-8), and the result of
reading the body (`Except.error` = transport fault mid-read carrying the
reqwest error's description). -/
structure HttpResponse where
  status : Nat
  retryAfter : Option String
  body : Except String BodyData

/-- `Response::status().is_success()`: 2xx. -/
def isSuccess (status : Nat) : Bool :=
  decide (200 ≤ status ∧ status < 300)

/-- `PodbeanClient::handle_error_response` (src/lib.rs:324-358):
429 → `RateLimitError` with the parsed `Retry-After`; otherwise read
the body: JSON with string fields `error` and `error_description` →
`ApiError` with `"{error}: {error_description}"`; any other readable
body → `ApiError` with the raw text; unreadable body → `OtherError`. -/
def handle_error_response (r : HttpResponse) : PodbeanError :=
  if r.status = 429 then
    .RateLimitError (r.retryAfter.bind parse_u64)
  else
    match r.body with
    | .ok bd =>
      match bd.json with
      | some j =>
        match (j.get "error").bind Json.asStr,
              (j.get "error_description").bind Json.asStr with
        | some e, some m => .ApiError r.status (e ++ ": " ++ m)
        | _, _ => .ApiError r.status bd.text
      | none => .ApiError r.status bd.text
    | .error e => .OtherError ("Failed to read error response: " ++ e)

/-- Splitting a character list at `'/'` (the components of a Unix
path, like `str::split('/')`). -/
def splitSlash : List Char → List (List Char)
  | [] => [[]]
  | c :: rest =>
    match splitSlash rest with
    | [] => [[c]]
    | h :: t => if c = '/' then [] :: h :: t else (c :: h) :: t

/-- `Path::new(p).file_name().and_then(|s| s.to_str())` for UTF-8 paths:
the last path component, skipping empty and `.` components, `None` when
the path is empty or ends in `..`. -/
def file_name (p : String) : Option String :=
  match ((splitSlash p.toList).filter fun cs =>
      decide (cs ≠ [] ∧ cs ≠ ['.'])).getLast? with
  | some cs => if cs = ['.', '.'] then none else some (String.mk cs)
  | none => none

/-- The parameter map `upload_media` builds for the authorize phase
(src/lib.rs:397-406): `filename` (basename of the path, defaulting to
"unknown.mp3") and `content_type`. -/
def uploadAuthorizeParams (file_path content_type : String) :
    List (String × String) :=
  [("filename", (file_name file_path).getD "unknown.mp3"),
   ("content_type", content_type)]

/-- One outbound effect of the pipeline. -/
inductive Effect where
  /-- `POST https://api.podbean.com/v1/oauth/token` with form params. -/
  | tokenRequest (params : List (String × String))
  /-- The main API request built by `make_request`. -/
  | apiRequest (method url authHeader : String)
      (params : List (String × String))
  /-- `tokio::fs::read(file_path)`. -/
  | fileRead (path : String)
  /-- The raw `PUT` of the file bytes to the presigned URL. -/
  | putUpload (url contentType : String)
deriving Repr, DecidableEq

/-- Is an effect part of the upload transfer phase (local file read or
`PUT` to the presigned URL)? -/
def Effect.isTransferPhase : Effect → Bool
  | .fileRead _ => true
  | .putUpload _ _ => true
  | _ => false

/-- The environment: what the outside world answers when the pipeline
performs I/O.  `Except.error` on a response = transport-level failure of
the send itself (carrying the reqwest error's description). -/
structure Env where
  tokenResponse : Except String HttpResponse
  apiResponse : Except String HttpResponse
  fileContent : Except String String
  putResponse : Except String HttpResponse

/-- `struct PodbeanClient` from src/lib.rs (the reqwest `Client` handle
holds no observable state and is omitted). -/
structure PodbeanClient where
  client_id : String
  client_secret : String
  base_url : String
  token : Option AuthToken
  rate_limit : RateLimiter

/-- `PodbeanClient::new` (src/lib.rs:138-152). -/
def PodbeanClient.new (client_id client_secret : String) : PodbeanClient :=
  ⟨client_id, client_secret, "https://api.podbean.com/v1", none,
    RateLimiter.new 60⟩

/-- `PodbeanClient::handle_token_response` (src/lib.rs:257-267) applied
to an already-received response at instant `now`: on 2xx decode a
`TokenResponse` and replace the stored token wholesale; a body-read or
decode failure is a reqwest error (`NetworkError`); otherwise classify. -/
def handle_token_response (c : PodbeanClient) (now : Nat)
    (r : HttpResponse) : PodbeanClient × Except PodbeanError Unit :=
  if isSuccess r.status then
    match r.body with
    | .ok bd =>
      match bd.token with
      | some tr =>
        ({ c with token := some (AuthToken.fromTokenResponse tr now) },
          .ok ())
      | none => (c, .error (.NetworkError "error decoding response body"))
    | .error e => (c, .error (.NetworkError e))
  else
    (c, .error (handle_error_response r))

/-- `PodbeanClient::refresh_token` (src/lib.rs:230-254) at instant
`now`: with a held token carrying a refresh secret, POST to the token
endpoint and handle the response; otherwise fail with
`AuthError("No refresh token available")` without any I/O.  Returns the
new client, the result, and the effects performed. -/
def refresh_token (c : PodbeanClient) (env : Env) (now : Nat) :
    PodbeanClient × Except PodbeanError Unit × List Effect :=
  match c.token with
  | some tok =>
    match tok.refresh_token with
    | some rt =>
      let params := [("grant_type", "refresh_token"),
                     ("refresh_token", rt),
                     ("client_id", c.client_id),
                     ("client_secret", c.client_secret)]
      match env.tokenResponse with
      | .error e =>
        (c, .error (.NetworkError e), [.tokenRequest params])
      | .ok resp =>
        let (c2, res) := handle_token_response c now resp
        (c2, res, [.tokenRequest params])
    | none =>
      (c, .error (.AuthError "No refresh token available"), [])
  | none => (c, .error (.AuthError "No refresh token available"), [])

/-- `PodbeanClient::ensure_token` (src/lib.rs:270-279) at instant `now`:
no token → `AuthError("Not authenticated")`; expired token → refresh
(propagating its failure); otherwise ok. -/
def ensure_token (c : PodbeanClient) (env : Env) (now : Nat) :
    PodbeanClient × Except PodbeanError Unit × List Effect :=
  match c.token with
  | some tok =>
    if tok.is_expired now then
      match refresh_token c env now with
      | (c2, .error e, effs) => (c2, .error e, effs)
      | (c2, .ok _, effs) => (c2, .ok (), effs)
    else (c, .ok (), [])
  | none => (c, .error (.AuthError "Not authenticated"), [])

/-- `PodbeanClient::make_request::<serde_json::Value>`
(src/lib.rs:285-321) at instant `now`: ensure the token, pass the rate
limiter (whose panic is modelled as the outer `none`), build the request
with the `Authorization` header, send, and on 2xx decode the body as a
JSON value.  The params' GET-query/POST-form distinction does not change
what is recorded here beyond the method string. -/
def make_request (c : PodbeanClient) (env : Env) (now : Nat)
    (method endpoint : String) (params : List (String × String)) :
    Option (PodbeanClient × Except PodbeanError Json × List Effect) :=
  match ensure_token c env now with
  | (c1, .error e, effs) => some (c1, .error e, effs)
  | (c1, .ok _, effs) =>
    match c1.rate_limit.wait_if_needed now with
    | none => none
    | some (rl2, _) =>
      let c2 := { c1 with rate_limit := rl2 }
      match c2.token with
      | none => none
      | some tok =>
        let url := c2.base_url ++ endpoint
        let auth := tok.token_type ++ " " ++ tok.access_token
        let effs2 := effs ++ [.apiRequest method url auth params]
        match env.apiResponse with
        | .error e => some (c2, .error (.NetworkError e), effs2)
        | .ok r =>
          if isSuccess r.status then
            match r.body with
            | .ok bd =>
              match bd.json with
              | some j => some (c2, .ok j, effs2)
              | none =>
                some (c2,
                  .error (.NetworkError "error decoding response body"),
                  effs2)
            | .error e => some (c2, .error (.NetworkError e), effs2)
          else some (c2, .error (handle_error_response r), effs2)

/-- `PodbeanClient::upload_media` (src/lib.rs:389-438) at instant `now`:
ensure the token, authorize the upload via `make_request`, extract
`presigned_url` and `file_key` (each missing/non-string value is a hard
`OtherError`), read the file, `PUT` the bytes to the presigned URL, and
return the file key. -/
def upload_media (c : PodbeanClient) (env : Env) (now : Nat)
    (file_path content_type : String) :
    Option (PodbeanClient × Except PodbeanError String × List Effect) :=
  match ensure_token c env now with
  | (c1, .error e, effs) => some (c1, .error e, effs)
  | (c1, .ok _, effs) =>
    let params := uploadAuthorizeParams file_path content_type
    match make_request c1 env now "GET" "/files/uploadAuthorize" params with
    | none => none
    | some (c2, .error e, effs2) => some (c2, .error e, effs ++ effs2)
    | some (c2, .ok presigned, effs2) =>
      let effs3 := effs ++ effs2
      match (presigned.get "presigned_url").bind Json.asStr with
      | none =>
        some (c2, .error (.OtherError "Missing presigned_url in response"),
          effs3)
      | some presigned_url =>
        match (presigned.get "file_key").bind Json.asStr with
        | none =>
          some (c2, .error (.OtherError "Missing file_key in response"),
            effs3)
        | some file_key =>
          match env.fileContent with
          | .error e =>
            some (c2, .error (.OtherError ("Failed to read file: " ++ e)),
              effs3 ++ [.fileRead file_path])
          | .ok _ =>
            let effs4 := effs3 ++ [.fileRead file_path,
                                   .putUpload presigned_url content_type]
            match env.putResponse with
            | .error e => some (c2, .error (.NetworkError e), effs4)
            | .ok r =>
              if isSuccess r.status then some (c2, .ok file_key, effs4)
              else some (c2, .error (handle_error_response r), effs4)

/-- Closed form for the admitted timestamps of the back-to-back run:
`j` completed clusters of `C` admissions at instants `window * i`. -/
def blockList (C j : Nat) : List Nat :=
  ((List.range j).map fun i => List.replicate C (window * i)).flatten

/-- Closed form: `j` full clusters followed by `c` admissions at
`window * j`. -/
def admOf (C j c : Nat) : List Nat :=
  blockList C j ++ List.replicate c (window * j)

/-- Closed form for the limiter's retained list during the back-to-back
run, as a function of the cluster index `j` and the in-cluster count
`c` (`1 ≤ c ≤ C`). -/
def rlOf (C j c : Nat) : List Nat :=
  if j = 0 then List.replicate c 0
  else if c = 1 then
    List.replicate (C - 1) (window * (j - 1)) ++ [window * j]
  else List.replicate c (window * j)

/-! ## Theorems -/

/-- C7: a credential is expired exactly when the elapsed time since its
creation instant plus the 300-second safety margin strictly exceeds the
declared lifetime.  (`is_expired` is a pure function of the token and
the observation instant: it returns a `Bool` and touches no state, so
side-effect-freedom holds by construction of the embedding.) -/
theorem c7_expiry_margin_rule (tok : AuthToken) (now : Nat) :
    tok.is_expired now = true ↔
      expiredSpec tok.created_at now tok.expires_in := by
  simp [AuthToken.is_expired, expiredSpec]

/-- C2 counterexample: a credential with `expires_in = 299` reports
expired already at its creation instant, refuting "isExpired() = false
at creation" for every declared lifetime; and a credential with
`expires_in = 1000` observed when exactly `E − 300 = 700` seconds of
lifetime remain (elapsed = 300) reports *not* expired, refuting
"expired once E − 300 seconds or less remain". -/
theorem c2_counterexample :
    (AuthToken.fromTokenResponse ⟨"t", "Bearer", 299, none, none⟩ 0).is_expired
        0 = true ∧
    (AuthToken.fromTokenResponse ⟨"t", "Bearer", 1000, none, none⟩ 0).is_expired
        300 = false := by
  constructor <;> decide

/-- C2 amended: for every declared lifetime `E ≥ 300`, a fresh
credential reports not expired at creation; it reports not expired while
at least 300 seconds of lifetime remain (in particular at elapsed
`E − 300` exactly); and it reports expired once elapsed time reaches
`E − 299`, i.e. once 299 seconds or less of the declared lifetime
remain. -/
theorem c2_expiry_boundaries (tok : AuthToken) (hE : 300 ≤ tok.expires_in) :
    tok.is_expired tok.created_at = false ∧
    tok.is_expired (tok.created_at + (tok.expires_in - 300)) = false ∧
    ∀ d, tok.expires_in - 299 ≤ d →
      tok.is_expired (tok.created_at + d) = true := by
  refine ⟨?_, ?_, fun d hd => ?_⟩ <;>
    · simp only [AuthToken.is_expired, decide_eq_false_iff_not,
        decide_eq_true_eq, not_lt, gt_iff_lt]
      omega

/-- C2 witness. -/
theorem c2_expiry_boundaries_witness :
    (AuthToken.fromTokenResponse ⟨"t", "Bearer", 1000, none, none⟩ 0).is_expired
        0 = false ∧
    (AuthToken.fromTokenResponse ⟨"t", "Bearer", 1000, none, none⟩ 0).is_expired
        (0 + (1000 - 300)) = false ∧
    ∀ d, 1000 - 299 ≤ d →
      (AuthToken.fromTokenResponse ⟨"t", "Bearer", 1000, none, none⟩ 0).is_expired
        (0 + d) = true :=
  c2_expiry_boundaries (AuthToken.fromTokenResponse ⟨"t", "Bearer", 1000, none, none⟩ 0)
    (by decide)

/-- C3: `RateLimiter::new(0)` is *not* rejected at construction — it
returns a limiter with capacity 0 and an empty timestamp vector — and
the very first `wait_if_needed` call on it then panics at runtime
(`request_times[0]` on the empty vector, modelled as `none`).  This
contradicts the spec's construction-time-rejection requirement, so the
claim is a code bug, witnessed here by evaluating the code at the
failing input. -/
theorem c3_zero_capacity_accepted_then_panics :
    RateLimiter.new 0 = ⟨0, []⟩ ∧
    (RateLimiter.new 0).wait_if_needed 0 = none := by
  constructor <;> rfl

/-- C4 counterexample: the parameter map `upload_media` sends to the
upload-authorization endpoint for a concrete upload contains `filename`
and `content_type` but no `filesize` key, refuting "carries all three
parameters". -/
theorem c4_counterexample :
    (uploadAuthorizeParams "/path/to/episode.mp3" "audio/mpeg").lookup
        "filesize" = none ∧
    (uploadAuthorizeParams "/path/to/episode.mp3" "audio/mpeg").lookup
        "filename" = some "episode.mp3" ∧
    (uploadAuthorizeParams "/path/to/episode.mp3" "audio/mpeg").lookup
        "content_type" = some "audio/mpeg" := by
  refine ⟨?_, ?_, ?_⟩ <;> rfl

/-- C4 amended: for every upload invocation, the authorize-phase request
carries the `filename` and `content_type` parameters and nothing else;
in particular `filesize` is never sent. -/
theorem c4_authorize_params (file_path content_type : String) :
    (uploadAuthorizeParams file_path content_type).lookup "filesize" = none ∧
    (uploadAuthorizeParams file_path content_type).lookup "content_type" =
      some content_type ∧
    (∃ fn, (uploadAuthorizeParams file_path content_type).lookup "filename" =
      some fn) ∧
    (uploadAuthorizeParams file_path content_type).map Prod.fst =
      ["filename", "content_type"] :=
  ⟨rfl, rfl, ⟨_, rfl⟩, rfl⟩

/-- C5: the error classifier is a total function (it is a Lean `def`,
defined on every terminal response), and: status 429 with
`Retry-After: 17` yields `RateLimitError (some 17)` whatever the body;
status 400 with the JSON body
`\x7b"error":"invalid_request","error_description":"bad redirect"\x7d`
yields `ApiError 400 "invalid_request: bad redirect"`; status 500 with
the non-JSON body `oops` yields `ApiError 500 "oops"`; and on any
non-429 response whose body cannot be read it yields the fallback
variant (`OtherError`, the spec's `Unclassified`) carrying the read
failure's description — no case panics. -/
theorem c5_error_classifier :
    (∀ body : Except String BodyData,
      handle_error_response ⟨429, some "17", body⟩ =
        .RateLimitError (some 17)) ∧
    handle_error_response
        ⟨400, none,
          .ok ⟨"\x7b\"error\":\"invalid_request\",\"error_description\":\"bad redirect\"\x7d",
            some (Json.obj [("error", .str "invalid_request"),
                            ("error_description", .str "bad redirect")]),
            none⟩⟩ = .ApiError 400 "invalid_request: bad redirect" ∧
    handle_error_response ⟨500, none, .ok ⟨"oops", none, none⟩⟩ =
      .ApiError 500 "oops" ∧
    ∀ (s : Nat) (ra : Option String) (e : String), s ≠ 429 →
      handle_error_response ⟨s, ra, .error e⟩ =
        .OtherError ("Failed to read error response: " ++ e) := by
  refine ⟨fun body => rfl, by decide, rfl, fun s ra e hs => ?_⟩
  unfold handle_error_response
  rw [if_neg hs]

/-- C5 witness. -/
theorem c5_error_classifier_witness :
    handle_error_response ⟨500, none, .error "connection reset"⟩ =
      .OtherError ("Failed to read error response: " ++ "connection reset") :=
  c5_error_classifier.2.2.2 500 none "connection reset" (by decide)

/-- C6: dispatching while holding an expired credential with no refresh
secret fails with the `AuthError` variant (the spec's `AuthFailure`),
performs no outbound I/O, and returns the client completely unchanged —
the same (still expired) credential is still held, not cleared. -/
theorem c6_expired_without_refresh_secret (c : PodbeanClient) (env : Env)
    (now : Nat) (method endpoint : String) (params : List (String × String))
    (tok : AuthToken) (htok : c.token = some tok)
    (hexp : tok.is_expired now = true) (hrt : tok.refresh_token = none) :
    make_request c env now method endpoint params =
      some (c, .error (.AuthError "No refresh token available"), []) ∧
    c.token = some tok ∧ tok.is_expired now = true := by
  refine ⟨?_, htok, hexp⟩
  unfold make_request ensure_token refresh_token
  simp [htok, hexp, hrt]

/-- C6 witness: a client holding a token that expired (lifetime 100 s,
observed 1000 s after creation) and carries no refresh secret. -/
theorem c6_expired_without_refresh_secret_witness :
    make_request
        ⟨"id", "sec", "https://api.podbean.com/v1",
          some (AuthToken.fromTokenResponse ⟨"t", "Bearer", 100, none, none⟩ 0),
          RateLimiter.new 60⟩
        ⟨.error "unused", .error "unused", .error "unused", .error "unused"⟩
        1000 "GET" "/podcasts" [] =
      some (⟨"id", "sec", "https://api.podbean.com/v1",
          some (AuthToken.fromTokenResponse ⟨"t", "Bearer", 100, none, none⟩ 0),
          RateLimiter.new 60⟩,
        .error (.AuthError "No refresh token available"), []) ∧
    (⟨"id", "sec", "https://api.podbean.com/v1",
        some (AuthToken.fromTokenResponse ⟨"t", "Bearer", 100, none, none⟩ 0),
        RateLimiter.new 60⟩ : PodbeanClient).token =
      some (AuthToken.fromTokenResponse ⟨"t", "Bearer", 100, none, none⟩ 0) ∧
    (AuthToken.fromTokenResponse ⟨"t", "Bearer", 100, none, none⟩ 0).is_expired
      1000 = true :=
  c6_expired_without_refresh_secret _ _ 1000 "GET" "/podcasts" []
    (AuthToken.fromTokenResponse ⟨"t", "Bearer", 100, none, none⟩ 0)
    rfl (by decide) rfl

/-- C8: dispatching while the client holds no credential fails
immediately with `AuthError("Not authenticated")` (the spec's
`AuthFailure`; the code's message capitalises "Not"), with an empty
effect trace: no outbound HTTP request is sent and the client is
unchanged. -/
theorem c8_unauthenticated_fails_without_io (c : PodbeanClient) (env : Env)
    (now : Nat) (method endpoint : String) (params : List (String × String))
    (htok : c.token = none) :
    make_request c env now method endpoint params =
      some (c, .error (.AuthError "Not authenticated"), []) := by
  unfold make_request ensure_token
  rw [htok]

/-- C8 witness: a freshly constructed client is unauthenticated. -/
theorem c8_unauthenticated_fails_without_io_witness :
    make_request (PodbeanClient.new "id" "sec")
        ⟨.error "unused", .error "unused", .error "unused", .error "unused"⟩
        0 "GET" "/podcasts" [] =
      some (PodbeanClient.new "id" "sec",
        .error (.AuthError "Not authenticated"), []) :=
  c8_unauthenticated_fails_without_io (PodbeanClient.new "id" "sec") _ 0
    "GET" "/podcasts" [] rfl

/-- With a positive capacity, `wait_if_needed` never reaches the empty
`request_times[0]` access, and its retained list stays bounded by the
larger of the incoming length and the capacity. -/
lemma wait_if_needed_some (rl : RateLimiter) (now : Nat)
    (hcap : 1 ≤ rl.requests_per_minute) :
    ∃ rl2 n2, rl.wait_if_needed now = some (rl2, n2) ∧
      rl2.requests_per_minute = rl.requests_per_minute ∧
      rl2.request_times.length ≤
        max rl.request_times.length rl.requests_per_minute := by
  simp only [RateLimiter.wait_if_needed]
  set kept := rl.request_times.filter fun t => decide (now - t < window)
    with hkept
  have hlen : kept.length ≤ rl.request_times.length :=
    List.length_filter_le _ _
  by_cases hge : rl.requests_per_minute ≤ kept.length
  · rw [if_pos hge]
    cases hk : kept with
    | nil => rw [hk] at hge; simp at hge; omega
    | cons oldest rest =>
      refine ⟨_, _, rfl, rfl, ?_⟩
      have : rest.length + 1 = kept.length := by rw [hk]; simp
      simp only [List.length_append, List.length_singleton]
      omega
  · rw [if_neg hge]
    refine ⟨_, _, rfl, rfl, ?_⟩
    simp only [List.length_append, List.length_singleton]
    omega

/-- The run invariant behind C10: from a state within capacity, any
sequence of calls stays within capacity and never panics. -/
lemma runCalls_safe (C : Nat) (hC : 1 ≤ C) (ts : List Nat) :
    ∀ rl : RateLimiter, rl.requests_per_minute = C →
      rl.request_times.length ≤ C →
      ∃ rl2, runCalls rl ts = some rl2 ∧ rl2.requests_per_minute = C ∧
        rl2.request_times.length ≤ C := by
  induction ts with
  | nil => exact fun rl hcap hlen => ⟨rl, rfl, hcap, hlen⟩
  | cons t ts ih =>
    intro rl hcap hlen
    obtain ⟨rl2, n2, heq, hcap2, hlen2⟩ :=
      wait_if_needed_some rl t (by omega)
    obtain ⟨rl3, h3, hc3, hl3⟩ := ih rl2 (by omega) (by omega)
    refine ⟨rl3, ?_, hc3, hl3⟩
    rw [runCalls, heq]
    exact h3

/-- C10: for every capacity `C ≥ 1` and every sequence of
`wait_if_needed` calls starting from the empty timestamp list, no call
panics (the `request_times[0]` access is reached only with a non-empty
list) and the retained list's length never exceeds `C` after a call
completes; and the guarantee fails for capacity 0, whose very first
call indexes the empty vector. -/
theorem c10_wait_if_needed_safety :
    (∀ (C : Nat) (ts : List Nat), 1 ≤ C →
      ∃ rl2, runCalls (RateLimiter.new C) ts = some rl2 ∧
        rl2.request_times.length ≤ C) ∧
    runCalls (RateLimiter.new 0) [0] = none := by
  constructor
  · intro C ts hC
    obtain ⟨rl2, h, _, hl⟩ :=
      runCalls_safe C hC ts (RateLimiter.new C) rfl
        (by simp [RateLimiter.new])
    exact ⟨rl2, h, hl⟩
  · rfl

/-- C10 witness. -/
theorem c10_wait_if_needed_safety_witness :
    ∃ rl2, runCalls (RateLimiter.new 1) [0, 5, 700] = some rl2 ∧
      rl2.request_times.length ≤ 1 :=
  c10_wait_if_needed_safety.1 1 [0, 5, 700] (by decide)

/-- A successful dispatch: fresh token, positive capacity, 2xx JSON
response — `make_request` returns the decoded JSON value and records
exactly one outbound API request. -/
lemma make_request_success (c : PodbeanClient) (env : Env) (now : Nat)
    (method endpoint : String) (params : List (String × String))
    (tok : AuthToken) (r : HttpResponse) (bd : BodyData) (j : Json)
    (htok : c.token = some tok) (hfresh : tok.is_expired now = false)
    (hcap : 1 ≤ c.rate_limit.requests_per_minute)
    (hresp : env.apiResponse = .ok r) (h2xx : isSuccess r.status = true)
    (hbody : r.body = .ok bd) (hjson : bd.json = some j) :
    ∃ rl2 : RateLimiter,
      make_request c env now method endpoint params =
        some ({ c with rate_limit := rl2 }, .ok j,
          [.apiRequest method (c.base_url ++ endpoint)
            (tok.token_type ++ " " ++ tok.access_token) params]) := by
  obtain ⟨rl2, n2, hw, _, _⟩ := wait_if_needed_some c.rate_limit now hcap
  refine ⟨rl2, ?_⟩
  unfold make_request ensure_token
  simp [htok, hfresh, hw, hresp, h2xx, hbody, hjson]

/-- C9: when the authorize-phase response of an upload is 2xx JSON but
its body is missing `presigned_url` or `file_key` (or holds a
non-string there), `upload_media` returns a failure and the effect
trace contains no transfer-phase effect: no local file read and no
`PUT` to a presigned URL was attempted. -/
theorem c9_missing_field_fails_before_transfer (c : PodbeanClient)
    (env : Env) (now : Nat) (file_path content_type : String)
    (tok : AuthToken) (r : HttpResponse) (bd : BodyData) (j : Json)
    (htok : c.token = some tok) (hfresh : tok.is_expired now = false)
    (hcap : 1 ≤ c.rate_limit.requests_per_minute)
    (hresp : env.apiResponse = .ok r) (h2xx : isSuccess r.status = true)
    (hbody : r.body = .ok bd) (hjson : bd.json = some j)
    (hmiss : (j.get "presigned_url").bind Json.asStr = none ∨
             (j.get "file_key").bind Json.asStr = none) :
    ∃ (c2 : PodbeanClient) (err : PodbeanError) (effs : List Effect),
      upload_media c env now file_path content_type =
        some (c2, .error err, effs) ∧
      ∀ e ∈ effs, e.isTransferPhase = false := by
  obtain ⟨rl2, hmk⟩ := make_request_success c env now "GET"
    "/files/uploadAuthorize" (uploadAuthorizeParams file_path content_type)
    tok r bd j htok hfresh hcap hresp h2xx hbody hjson
  unfold upload_media ensure_token
  rw [htok]
  simp only [hfresh, Bool.false_eq_true, if_false, hmk]
  cases hpu : (j.get "presigned_url").bind Json.asStr with
  | none =>
    refine ⟨_, _, _, rfl, ?_⟩
    intro e he
    simp only [List.nil_append, List.mem_singleton] at he
    subst he
    rfl
  | some u =>
    have hfk : (j.get "file_key").bind Json.asStr = none := by
      rcases hmiss with h | h
      · rw [h] at hpu; cases hpu
      · exact h
    rw [hfk]
    refine ⟨_, _, _, rfl, ?_⟩
    intro e he
    simp only [List.nil_append, List.mem_singleton] at he
    subst he
    rfl

/-- C9 witness: a fresh client with a valid token, an authorize
response whose 2xx JSON body has `presigned_url` but no `file_key`. -/
theorem c9_missing_field_fails_before_transfer_witness :
    ∃ (c2 : PodbeanClient) (err : PodbeanError) (effs : List Effect),
      upload_media
          ⟨"id", "sec", "https://api.podbean.com/v1",
            some (AuthToken.fromTokenResponse
              ⟨"t", "Bearer", 5000, some "rt", none⟩ 0),
            RateLimiter.new 60⟩
          ⟨.error "unused",
            .ok ⟨200, none,
              .ok ⟨"", some (Json.obj [("presigned_url", .str "u")]), none⟩⟩,
            .ok "bytes", .error "unused"⟩
          0 "/path/to/episode.mp3" "audio/mpeg" =
        some (c2, .error err, effs) ∧
      ∀ e ∈ effs, e.isTransferPhase = false :=
  c9_missing_field_fails_before_transfer _ _ 0 "/path/to/episode.mp3"
    "audio/mpeg"
    (AuthToken.fromTokenResponse ⟨"t", "Bearer", 5000, some "rt", none⟩ 0)
    ⟨200, none, .ok ⟨"", some (Json.obj [("presigned_url", .str "u")]), none⟩⟩
    ⟨"", some (Json.obj [("presigned_url", .str "u")]), none⟩
    (Json.obj [("presigned_url", .str "u")])
    rfl (by decide) (by decide) rfl (by decide) rfl rfl
    (Or.inr (by decide))

lemma blockList_zero (C : Nat) : blockList C 0 = [] := rfl

lemma blockList_succ (C j : Nat) :
    blockList C (j + 1) = blockList C j ++ List.replicate C (window * j) := by
  simp [blockList, List.range_succ]

lemma admOf_push (C j c : Nat) :
    admOf C j c ++ [window * j] = admOf C j (c + 1) := by
  simp [admOf, List.replicate_succ', List.append_assoc]

lemma admOf_succ (C j c : Nat) :
    admOf C (j + 1) c = admOf C j C ++ List.replicate c (window * (j + 1)) := by
  simp [admOf, blockList_succ, List.append_assoc]

lemma admOf_wrap (C j : Nat) :
    admOf C j C ++ [window * (j + 1)] = admOf C (j + 1) 1 := by
  rw [admOf_succ]
  simp

/-- Every timestamp admitted so far is at most the current cluster
instant. -/
lemma mem_admOf_le (C j c x : Nat) (hx : x ∈ admOf C j c) :
    x ≤ window * j := by
  rcases List.mem_append.mp hx with hb | hr
  · rcases List.mem_flatten.mp hb with ⟨l, hl, hxl⟩
    rcases List.mem_map.mp hl with ⟨i, hi, rfl⟩
    rw [List.eq_of_mem_replicate hxl]
    exact Nat.mul_le_mul le_rfl (Nat.le_of_lt (List.mem_range.mp hi))
  · exact le_of_eq (List.eq_of_mem_replicate hr)

/-- The window bound on the closed-form admitted list: any half-open
60-second window contains at most `C` admitted timestamps, because it
contains at most one multiple of 60 s and each cluster holds at most
`C` admissions. -/
lemma countP_admOf_le (C j t : Nat) :
    ∀ c, c ≤ C →
      (admOf C j c).countP (fun x => decide (t ≤ x ∧ x < t + window)) ≤ C := by
  induction j with
  | zero =>
    intro c hc
    have h0 : admOf C 0 c = List.replicate c 0 := by
      simp [admOf, blockList]
    rw [h0, List.countP_replicate]
    split <;> omega
  | succ j ih =>
    intro c hc
    rw [admOf_succ, List.countP_append, List.countP_replicate]
    by_cases hp : t ≤ window * (j + 1) ∧ window * (j + 1) < t + window
    · have hz : (admOf C j C).countP
          (fun x => decide (t ≤ x ∧ x < t + window)) = 0 := by
        rw [List.countP_eq_zero]
        intro x hx
        have hxle := mem_admOf_le C j C x hx
        have hmul : window * (j + 1) = window * j + window :=
          Nat.mul_succ window j
        simp only [decide_eq_true_eq]
        omega
      rw [hz]
      simp only [decide_eq_true_eq, if_pos hp]
      omega
    · have hd : decide (t ≤ window * (j + 1) ∧ window * (j + 1) < t + window)
          = false := decide_eq_false hp
      simp only [decide_eq_true_eq, if_neg hp, Nat.add_zero]
      exact ih C le_rfl

/-- A `wait_if_needed` call whose pruned list is still below capacity
admits the current instant at once. -/
lemma wiN_below_capacity (C now : Nat) (l kept : List Nat)
    (hf : l.filter (fun t => decide (now - t < window)) = kept)
    (hlen : kept.length < C) :
    RateLimiter.wait_if_needed ⟨C, l⟩ now =
      some (⟨C, kept ++ [now]⟩, now) := by
  simp only [RateLimiter.wait_if_needed, hf]
  rw [if_neg (by omega)]

/-- A `wait_if_needed` call whose pruned list is at capacity and whose
oldest retained entry is the current instant itself sleeps a full 60 s
(the computed wait is exactly the window, so the `as_secs() > 0` guard
passes), evicts the oldest entry and admits the post-sleep instant. -/
lemma wiN_at_capacity (C now : Nat) (l rest : List Nat)
    (hf : l.filter (fun t => decide (now - t < window)) = now :: rest)
    (hlen : C ≤ rest.length + 1) :
    RateLimiter.wait_if_needed ⟨C, l⟩ now =
      some (⟨C, rest ++ [now + window]⟩, now + window) := by
  have hsecs : 0 < window / nsPerSec := by decide
  simp only [RateLimiter.wait_if_needed, hf, List.length_cons]
  rw [if_pos hlen]
  simp only [Nat.sub_self, Nat.sub_zero]
  rw [if_pos hsecs]

/-- One back-to-back step from the closed-form state: below capacity
the current instant is admitted at once; at capacity the call sleeps a
full 60 s, evicts the oldest entry and admits the post-sleep instant,
starting the next cluster. -/
lemma wiN_step (C j c : Nat) (hC : 1 ≤ C) (hc1 : 1 ≤ c) (hcC : c ≤ C) :
    RateLimiter.wait_if_needed ⟨C, rlOf C j c⟩ (window * j) =
      if c < C then some (⟨C, rlOf C j (c + 1)⟩, window * j)
      else some (⟨C, rlOf C (j + 1) 1⟩, window * (j + 1)) := by
  have hw0 : (0 : Nat) < window := by decide
  rcases Nat.eq_zero_or_pos j with rfl | hj
  · simp only [Nat.mul_zero]
    have hrl : rlOf C 0 c = List.replicate c 0 := by simp [rlOf]
    rw [hrl]
    by_cases hlt : c < C
    · rw [if_pos hlt]
      have hf : (List.replicate c (0 : Nat)).filter
          (fun t => decide (0 - t < window)) = List.replicate c 0 := by
        simp [List.filter_replicate, hw0]
      rw [wiN_below_capacity C 0 _ _ hf (by simpa using hlt)]
      have hr1 : rlOf C 0 (c + 1) = List.replicate (c + 1) 0 := by
        simp [rlOf]
      rw [hr1, List.replicate_succ']
    · rw [if_neg hlt]
      have hce : c = C := by omega
      subst hce
      obtain ⟨c', rfl⟩ : ∃ c', c = c' + 1 := ⟨c - 1, by omega⟩
      have hf : (List.replicate (c' + 1) (0 : Nat)).filter
          (fun t => decide (0 - t < window)) = 0 :: List.replicate c' 0 := by
        simp [List.filter_replicate, hw0, List.replicate_succ]
      rw [wiN_at_capacity (c' + 1) 0 _ _ hf (by simp)]
      have hr1 : rlOf (c' + 1) (0 + 1) 1 =
          List.replicate c' 0 ++ [window] := by
        simp [rlOf]
      rw [hr1]
      simp
  · obtain ⟨k, rfl⟩ : ∃ k, j = k + 1 := ⟨j - 1, by omega⟩
    have hfself : decide (window * (k + 1) - window * (k + 1) < window)
        = true := by
      rw [Nat.sub_self]
      exact decide_eq_true hw0
    have hfold : decide (window * (k + 1) - window * k < window) = false := by
      have hdk : window * (k + 1) - window * k = window := by
        rw [Nat.mul_succ]
        omega
      rw [hdk]
      exact decide_eq_false (lt_irrefl window)
    rcases Nat.lt_or_ge c 2 with hc2 | hc2
    · have hceq : c = 1 := by omega
      subst hceq
      have hrl : rlOf C (k + 1) 1 =
          List.replicate (C - 1) (window * k) ++ [window * (k + 1)] := by
        simp [rlOf]
      rw [hrl]
      have hf : (List.replicate (C - 1) (window * k) ++
            [window * (k + 1)]).filter
          (fun t => decide (window * (k + 1) - t < window)) =
          window * (k + 1) :: [] := by
        rw [List.filter_append]
        simp [List.filter_replicate, List.filter_cons, hfold, hfself,
          hw0, hw0.ne']
      by_cases hlt : 1 < C
      · rw [if_pos hlt,
          wiN_below_capacity C (window * (k + 1)) _ _ hf (by simpa using hlt)]
        have hr2 : rlOf C (k + 1) 2 =
            List.replicate 2 (window * (k + 1)) := by
          simp [rlOf]
        rw [hr2]
        rfl
      · have hC1 : C = 1 := by omega
        subst hC1
        rw [if_neg hlt,
          wiN_at_capacity 1 (window * (k + 1)) _ _ hf (by simp)]
        have hr1 : rlOf 1 (k + 1 + 1) 1 = [window * (k + 1 + 1)] := by
          simp [rlOf]
        rw [hr1, ← Nat.mul_succ]
        rfl
    · have hrl : rlOf C (k + 1) c = List.replicate c (window * (k + 1)) := by
        have hne : c ≠ 1 := by omega
        simp [rlOf, hne]
      rw [hrl]
      by_cases hlt : c < C
      · rw [if_pos hlt]
        have hf : (List.replicate c (window * (k + 1))).filter
            (fun t => decide (window * (k + 1) - t < window)) =
            List.replicate c (window * (k + 1)) := by
          simp [List.filter_replicate, hfself, hw0, hw0.ne']
        rw [wiN_below_capacity C (window * (k + 1)) _ _ hf
          (by simpa using hlt)]
        have hr2 : rlOf C (k + 1) (c + 1) =
            List.replicate (c + 1) (window * (k + 1)) := by
          have hne : c + 1 ≠ 1 := by omega
          simp [rlOf, hne]
        rw [hr2, List.replicate_succ']
      · rw [if_neg hlt]
        have hce : c = C := by omega
        subst hce
        obtain ⟨c', rfl⟩ : ∃ c', c = c' + 1 := ⟨c - 1, by omega⟩
        have hf2 : (List.replicate (c' + 1) (window * (k + 1))).filter
            (fun t => decide (window * (k + 1) - t < window)) =
            window * (k + 1) :: List.replicate c' (window * (k + 1)) := by
          simp [List.filter_replicate, hfself, List.replicate_succ,
            hw0, hw0.ne']
        rw [wiN_at_capacity (c' + 1) (window * (k + 1)) _ _ hf2 (by simp)]
        have hr1 : rlOf (c' + 1) (k + 1 + 1) 1 =
            List.replicate c' (window * (k + 1)) ++ [window * (k + 1 + 1)] := by
          simp [rlOf]
        rw [hr1, ← Nat.mul_succ]

/-- Closed-form characterization of the whole back-to-back run. -/
lemma btbRun_char (C : Nat) (hC : 1 ≤ C) (n : Nat) :
    btbRun C n = some (⟨C, []⟩, 0, []) ∧ n = 0 ∨
    ∃ j c, 1 ≤ c ∧ c ≤ C ∧
      btbRun C n = some (⟨C, rlOf C j c⟩, window * j, admOf C j c) := by
  induction n with
  | zero => exact Or.inl ⟨rfl, rfl⟩
  | succ n ih =>
    right
    rcases ih with ⟨heq, _⟩ | ⟨j, c, hc1, hcC, heq⟩
    · refine ⟨0, 1, le_rfl, hC, ?_⟩
      have hstep : RateLimiter.wait_if_needed ⟨C, []⟩ 0 =
          some (⟨C, [] ++ [0]⟩, 0) :=
        wiN_below_capacity C 0 [] [] (by simp)
          (by simp only [List.length_nil]; exact hC)
      simp only [btbRun, heq, hstep]
      simp [rlOf, admOf, blockList]
    · have hstep := wiN_step C j c hC hc1 hcC
      by_cases hlt : c < C
      · refine ⟨j, c + 1, by omega, by omega, ?_⟩
        rw [if_pos hlt] at hstep
        simp only [btbRun, heq, hstep]
        rw [admOf_push]
      · have hce : c = C := by omega
        subst hce
        refine ⟨j + 1, 1, le_rfl, hC, ?_⟩
        rw [if_neg hlt] at hstep
        simp only [btbRun, heq, hstep]
        rw [admOf_wrap]

/-- C1: for every capacity `C ≥ 1` and every number of back-to-back
admission requests against one limiter, the run never panics and no
60-second rolling window of real time (any half-open interval
`[t, t + 60 s)`; the code's own prune counts a timestamp exactly 60 s
old as outside the window) contains more than `C` of the admitted
timestamps recorded at the end of the `wait_if_needed` calls. -/
theorem c1_sliding_window_invariant (C n : Nat) (hC : 1 ≤ C) :
    ∃ rl now adm, btbRun C n = some (rl, now, adm) ∧
      ∀ t, adm.countP (fun x => decide (t ≤ x ∧ x < t + window)) ≤ C := by
  rcases btbRun_char C hC n with ⟨heq, _⟩ | ⟨j, c, hc1, hcC, heq⟩
  · exact ⟨_, _, _, heq, fun t => by simp⟩
  · exact ⟨_, _, _, heq, fun t => countP_admOf_le C j t c hcC⟩

/-- C1 witness. -/
theorem c1_sliding_window_invariant_witness :
    ∃ rl now adm, btbRun 2 7 = some (rl, now, adm) ∧
      ∀ t, adm.countP (fun x => decide (t ≤ x ∧ x < t + window)) ≤ 2 :=
  c1_sliding_window_invariant 2 7 (by decide)

end Podbean
